import Mathlib

/-!
# go-sox: the Go binding of libSoX (`sox.go`)

A shallow embedding of the wrapper functions of `sox.go`.

* A C pointer to a libSoX object is its address (`Ptr`); address `0` is the null pointer.
* A Go pointer to a wrapper struct (`*Format`, `*SignalInfo`, ...) is an `Option`: `none` is the
  Go `nil` pointer.  Methods are modelled on a valid (non-nil) receiver.
* libSoX itself is not part of the sources.  Every library routine the wrappers call is a field
  of `LibSoX`: a function from the state of the C world and the arguments of the call to the
  value the routine returns and the new state of the C world.
* A wrapper returns an `Outcome`: its Go result (or the run-time panic that aborted it), the new
  state of the C world, and the list of C calls it made, in order.
* Machine integers are `Nat`/`Int`; the conversions of the source that can wrap
  (`int64(size_t)`, `C.int(size_t)`) are explicit.  `uint` and `C.size_t` are the 64-bit types
  of the platforms cgo is commonly built for; `C.int` has 32 bits.
* A Go string is the sequence of its bytes, which need not be valid UTF-8 and may hold NUL
  bytes; a C string is the sequence of bytes before its terminating NUL.
* The C heap is a total map from addresses to bytes: a read through a dangling or null address
  is not modelled as a fault.
-/

namespace Sox

/-! ## Data model -/

/-- Address of a libSoX object (`*C.sox_format_t`, `*C.sox_effect_t`, ...); `0` is `NULL`. -/
abbrev Ptr := Nat

/-- A Go `string`: the sequence of its bytes. -/
abbrev GoString := List Nat

/-- A data pointer handed to C (`*C.char`, `unsafe.Pointer`). -/
inductive CData where
  /-- a raw address (a pointer converted with `unsafe.Pointer`); `addr 0` is `NULL` -/
  | addr (a : Ptr)
  /-- a pointer to a fresh NUL-terminated C string, by the content of that C string: the bytes
  before its terminating NUL -/
  | cstr (content : List Nat)
  /-- the pointer `&buffer[0]` into a Go byte slice with the given contents -/
  | goBytes (b : List Nat)
  deriving DecidableEq, Repr

/-- The null data pointer (`nil` in the source). -/
def CData.null : CData := CData.addr 0

/-- Source: `type Format struct { cFormat *C.sox_format_t }` -/
structure Format where
  cFormat : Ptr
  deriving DecidableEq, Repr

/-- Source: `type SignalInfo struct { cSignal *C.sox_signalinfo_t }` -/
structure SignalInfo where
  cSignal : Ptr
  deriving DecidableEq, Repr

/-- Source: `type EncodingInfo struct { cEncoding *C.sox_encodinginfo_t }` -/
structure EncodingInfo where
  cEncoding : Ptr
  deriving DecidableEq, Repr

/-- Source: `type FormatHandler struct { cHandler *C.sox_format_handler_t }` -/
structure FormatHandler where
  cHandler : Ptr
  deriving DecidableEq, Repr

/-- Source: `type EffectsChain struct { cChain *C.sox_effects_chain_t }` -/
structure EffectsChain where
  cChain : Ptr
  deriving DecidableEq, Repr

/-- Source: `type Effect struct { cEffect *C.sox_effect_t }` -/
structure Effect where
  cEffect : Ptr
  deriving DecidableEq, Repr

/-- Source: `type Memstream struct { buffer *C.char; length C.size_t }` -/
structure Memstream where
  buffer : Ptr
  length : Nat
  deriving DecidableEq, Repr

/-- A Go value passed as `interface{}`, by its dynamic type.  A pointer type keeps its possibly
nil pointer: the type switch `case *Format:` also selects a nil `*Format`. -/
inductive GoValue where
  /-- the nil interface value -/
  | nilValue
  /-- a `string`, by its bytes -/
  | str (s : GoString)
  /-- a `*Format`; `none` is the nil pointer -/
  | format (f : Option Format)
  /-- a `[]byte` with the given elements -/
  | bytes (b : List Nat)
  /-- a `*Memstream`; `none` is the nil pointer -/
  | memstream (m : Option Memstream)
  /-- a value of any other dynamic type -/
  | other (tag : Nat)
  deriving DecidableEq, Repr

/-- A Go run-time panic. -/
inductive Panic where
  /-- Source: `panic(msg)` raised by the source itself -/
  | message (msg : String)
  /-- index out of range (`buffer[0]` on an empty slice) -/
  | indexOutOfRange
  /-- field access through a nil pointer -/
  | nilDereference
  /-- the panic of `C.GoBytes` on a negative length -/
  | gobytesLength
  deriving DecidableEq, Repr

/-- A call from Go into C, with its arguments. -/
inductive CCall where
  | sox_format_init
  | sox_init
  | sox_quit
  | sox_close (ft : Ptr)
  | sox_read (ft : Ptr) (buf : List Int) (len : Nat)
  | sox_seek (ft : Ptr) (offset : Nat) (whence : Int)
  | sox_open_read (path : CData) (signal encoding : Ptr) (filetype : CData)
  | sox_open_mem_read (buffer : CData) (size : Nat) (signal encoding : Ptr) (filetype : CData)
  | sox_open_write (path : CData) (signal encoding : Ptr) (filetype : CData) (oob overwrite : Ptr)
  | sox_find_format (name : CData) (ignoreDevices : Int)
  | sox_add_effect (chain effect inSignal outSignal : Ptr)
  | sox_flow_effects (chain callback clientData : Ptr)
  | sox_effect_options (effect : Ptr) (argc : Int) (argv : Option (List CData))
  | free (p : CData)
  deriving DecidableEq, Repr

/-- What a wrapper did: its result or the panic that aborted it, the state of the C world
afterwards, and the C calls it made, in order. -/
structure Outcome (σ α : Type) where
  result : Except Panic α
  world : σ
  calls : List CCall

/-- The C side: the constants of `sox.h` the wrappers use and the library routines they call.
`σ` is the state of the C world. -/
structure LibSoX (σ : Type) where
  /-- the constant `C.SOX_SUCCESS` of `sox.h` -/
  SOX_SUCCESS : Int
  /-- the constant `C.SOX_EOF` of `sox.h` -/
  SOX_EOF : Int
  /-- the constant `C.SOX_SEEK_SET` of `sox.h` -/
  SOX_SEEK_SET : Int
  sox_format_init : σ → Int × σ
  sox_init : σ → Int × σ
  sox_quit : σ → Int × σ
  sox_close : σ → Ptr → Int × σ
  /-- returns the count of samples produced (a `size_t`) and the buffer as the decoder left it -/
  sox_read : σ → Ptr → List Int → Nat → (Nat × List Int) × σ
  sox_open_read : σ → CData → Ptr → Ptr → CData → Ptr × σ
  sox_open_mem_read : σ → CData → Nat → Ptr → Ptr → CData → Ptr × σ
  sox_open_write : σ → CData → Ptr → Ptr → CData → Ptr → Ptr → Ptr × σ
  sox_find_format : σ → CData → Int → Ptr × σ
  sox_add_effect : σ → Ptr → Ptr → Ptr → Ptr → Int × σ
  sox_flow_effects : σ → Ptr → Ptr → Ptr → Int × σ
  sox_effect_options : σ → Ptr → Int → Option (List CData) → Int × σ
  /-- the seek entry point of the format handler bound to a session -/
  handler_seek : σ → Ptr → Nat → Int → Int × σ
  /-- the field `seekable` of the `sox_format_t` at an address -/
  seekable : σ → Ptr → Int
  /-- the byte stored at an address of the C heap -/
  memory : σ → Nat → Nat

/-! ## Integer conversions -/

/-- Conversion of an unsigned value to a signed integer type of `bits` bits: the low `bits`
bits, read as two's complement. -/
def wrapSigned (bits : Nat) (n : Nat) : Int :=
  if n % 2 ^ bits < 2 ^ (bits - 1) then ((n % 2 ^ bits : Nat) : Int)
  else ((n % 2 ^ bits : Nat) : Int) - ((2 ^ bits : Nat) : Int)

/-- Go `int64(x)` for `x` of type `C.size_t`. -/
def toInt64 (n : Nat) : Int := wrapSigned 64 n

/-- Go `C.int(x)` for `x` of type `C.size_t`. -/
def toCInt (n : Nat) : Int := wrapSigned 32 n

/-- The C string that starts at the first byte of a block of memory: the bytes before the
first NUL of the block. -/
def cStringContent (block : List Nat) : List Nat :=
  block.takeWhile fun b => b != 0

/-- The cgo helper `C.CString(s)`: it allocates `len(s) + 1` bytes in the C heap, copies the
bytes of `s` there and stores a NUL after them; the result points to the first byte.  What C
receives is the C string that starts there, which ends at the first NUL: at a NUL byte of `s`
itself when there is one. -/
def CString (s : GoString) : CData := CData.cstr (cStringContent (s ++ [0]))

/-- The cgo helper `C.GoBytes(p, n)`: a Go copy of the `n` bytes at `p`; panics when `n` is negative. -/
def GoBytes (mem : Nat → Nat) (p : Ptr) (n : Int) : Except Panic (List Nat) :=
  if n < 0 then Except.error Panic.gobytesLength
  else Except.ok ((List.range n.toNat).map fun i => mem (p + i))

/-! ## The wrappers of `sox.go` -/

section Wrappers

variable {σ : Type}

/-- Source: `func FormatInit() bool` -/
def FormatInit (lib : LibSoX σ) (w : σ) : Outcome σ Bool :=
  let ret := lib.sox_format_init w
  { result := Except.ok (decide (ret.1 = lib.SOX_SUCCESS)), world := ret.2,
    calls := [CCall.sox_format_init] }

/-- Source: `func Init() bool` -/
def Init (lib : LibSoX σ) (w : σ) : Outcome σ Bool :=
  let ret := lib.sox_init w
  { result := Except.ok (decide (ret.1 = lib.SOX_SUCCESS)), world := ret.2,
    calls := [CCall.sox_init] }

/-- Source: `func Quit() bool` -/
def Quit (lib : LibSoX σ) (w : σ) : Outcome σ Bool :=
  let ret := lib.sox_quit w
  { result := Except.ok (decide (ret.1 = lib.SOX_SUCCESS)), world := ret.2,
    calls := [CCall.sox_quit] }

/-- Source: `func (f *Format) Close()`: the result is the `Format` the receiver points to after the
call. -/
def Format.Close (lib : LibSoX σ) (f : Format) (w : σ) : Outcome σ Format :=
  let ret := lib.sox_close w f.cFormat
  { result := Except.ok { f with cFormat := 0 }, world := ret.2,
    calls := [CCall.sox_close f.cFormat] }

/-- Source: `func (f *Format) Seekable() bool`: `f.cFormat.seekable != 0`. -/
def Format.Seekable (lib : LibSoX σ) (f : Format) (w : σ) : Bool :=
  decide (lib.seekable w f.cFormat ≠ 0)

/-- Source: `func (f *Format) Read(buffer []Sample, num uint) int64`.  `&buffer[0]` panics on an empty
slice.  The result is the returned `int64` together with the buffer as the decoder left it. -/
def Format.Read (lib : LibSoX σ) (f : Format) (buffer : List Int) (num : Nat) (w : σ) :
    Outcome σ (Int × List Int) :=
  match buffer with
  | [] => { result := Except.error Panic.indexOutOfRange, world := w, calls := [] }
  | _ :: _ =>
    let ret := lib.sox_read w f.cFormat buffer num
    { result := Except.ok (toInt64 ret.1.1, ret.1.2), world := ret.2,
      calls := [CCall.sox_read f.cFormat buffer num] }

/-- Modelled from the spec: the library routine `sox_seek`, which `Format.Seek` calls and whose
source is not among the sources.  The spec (4.2) says of it: seek "repositions decode cursor to
an absolute frame offset; fails (returns false) if the session's seekable flag is false or the
handler rejects the offset", and (8): seek "on a non-seekable session always fails and leaves
cursor unchanged".  A failure is the code `SOX_EOF`; on a seekable session the handler
decides. -/
def sox_seek (lib : LibSoX σ) (w : σ) (ft : Ptr) (offset : Nat) (whence : Int) : Int × σ :=
  if lib.seekable w ft = 0 then (lib.SOX_EOF, w)
  else lib.handler_seek w ft offset whence

/-- Source: `func (f *Format) Seek(offset uint64) bool` -/
def Format.Seek (lib : LibSoX σ) (f : Format) (offset : Nat) (w : σ) : Outcome σ Bool :=
  let ret := sox_seek lib w f.cFormat offset lib.SOX_SEEK_SET
  { result := Except.ok (decide (ret.1 = lib.SOX_SUCCESS)), world := ret.2,
    calls := [CCall.sox_seek f.cFormat offset lib.SOX_SEEK_SET] }

/-- Source: `func OpenRead(path string) *Format` -/
def OpenRead (lib : LibSoX σ) (path : GoString) (w : σ) : Outcome σ (Option Format) :=
  let cpath := CString path
  let ret := lib.sox_open_read w cpath 0 0 CData.null
  { result := Except.ok (if ret.1 = 0 then none else some { cFormat := ret.1 }),
    world := ret.2,
    calls := [CCall.sox_open_read cpath 0 0 CData.null, CCall.free cpath] }

/-- Source: `func OpenMemRead(buffer interface{}) *Format`.  `&buffer[0]` panics on an empty slice and
`buffer.buffer` panics on a nil `*Memstream`; for any other dynamic type no case of the type
switch is taken and `fmt.cFormat` keeps its zero value. -/
def OpenMemRead (lib : LibSoX σ) (buffer : GoValue) (w : σ) : Outcome σ (Option Format) :=
  match buffer with
  | GoValue.bytes [] => { result := Except.error Panic.indexOutOfRange, world := w, calls := [] }
  | GoValue.bytes (b :: bs) =>
    let ret := lib.sox_open_mem_read w (CData.goBytes (b :: bs)) (b :: bs).length 0 0 CData.null
    { result := Except.ok (if ret.1 = 0 then none else some { cFormat := ret.1 }),
      world := ret.2,
      calls := [CCall.sox_open_mem_read (CData.goBytes (b :: bs)) (b :: bs).length 0 0
        CData.null] }
  | GoValue.memstream none =>
    { result := Except.error Panic.nilDereference, world := w, calls := [] }
  | GoValue.memstream (some m) =>
    let ret := lib.sox_open_mem_read w (CData.addr m.buffer) m.length 0 0 CData.null
    { result := Except.ok (if ret.1 = 0 then none else some { cFormat := ret.1 }),
      world := ret.2,
      calls := [CCall.sox_open_mem_read (CData.addr m.buffer) m.length 0 0 CData.null] }
  | _ => { result := Except.ok none, world := w, calls := [] }

/-- Source: `func maybeCSignal(signal *SignalInfo) *C.sox_signalinfo_t` -/
def maybeCSignal (signal : Option SignalInfo) : Ptr :=
  match signal with
  | some s => s.cSignal
  | none => 0

/-- Source: `func maybeCEncoding(encoding *EncodingInfo) *C.sox_encodinginfo_t` -/
def maybeCEncoding (encoding : Option EncodingInfo) : Ptr :=
  match encoding with
  | some e => e.cEncoding
  | none => 0

/-- Source: `func maybeCString(s interface{}) *C.char` -/
def maybeCString (s : GoValue) : CData :=
  match s with
  | GoValue.str s => CString s
  | _ => CData.null

/-- Source: `func OpenWrite(path string, signal *SignalInfo, encoding *EncodingInfo,
filetype interface{}) *Format` -/
def OpenWrite (lib : LibSoX σ) (path : GoString) (signal : Option SignalInfo)
    (encoding : Option EncodingInfo) (filetype : GoValue) (w : σ) : Outcome σ (Option Format) :=
  let cpath := CString path
  let cfiletype := maybeCString filetype
  let ret := lib.sox_open_write w cpath (maybeCSignal signal) (maybeCEncoding encoding)
    cfiletype 0 0
  { result := Except.ok (if ret.1 = 0 then none else some { cFormat := ret.1 }),
    world := ret.2,
    calls := CCall.sox_open_write cpath (maybeCSignal signal) (maybeCEncoding encoding)
        cfiletype 0 0 :: CCall.free cpath ::
      (if cfiletype ≠ CData.null then [CCall.free cfiletype] else []) }

/-- Source: `func NewMemstream() *Memstream`: a zero-valued `Memstream`. -/
def NewMemstream : Memstream := { buffer := 0, length := 0 }

/-- Source: `func (m *Memstream) Bytes() []byte`: `C.GoBytes(unsafe.Pointer(m.buffer), C.int(m.length))`. -/
def Memstream.Bytes (lib : LibSoX σ) (m : Memstream) (w : σ) : Except Panic (List Nat) :=
  GoBytes (lib.memory w) m.buffer (toCInt m.length)

/-- Source: `func bool2int(b bool) int` -/
def bool2int (b : Bool) : Int :=
  if b then 1 else 0

/-- Source: `func FindFormat(name string, ignore_devices bool) *FormatHandler`: the result is `&fmt` on
every path. -/
def FindFormat (lib : LibSoX σ) (name : GoString) (ignore_devices : Bool) (w : σ) :
    Outcome σ (Option FormatHandler) :=
  let cname := CString name
  let ret := lib.sox_find_format w cname (bool2int ignore_devices)
  { result := Except.ok (some { cHandler := ret.1 }), world := ret.2,
    calls := [CCall.sox_find_format cname (bool2int ignore_devices), CCall.free cname] }

/-- Source: `func (c *EffectsChain) AddEffect(effect *Effect, in, out *SignalInfo) bool`: reading a
field through a nil argument panics before the call is made. -/
def EffectsChain.AddEffect (lib : LibSoX σ) (c : EffectsChain) (effect : Option Effect)
    (inSignal outSignal : Option SignalInfo) (w : σ) : Outcome σ Bool :=
  match effect, inSignal, outSignal with
  | some e, some i, some o =>
    let ret := lib.sox_add_effect w c.cChain e.cEffect i.cSignal o.cSignal
    { result := Except.ok (decide (ret.1 = lib.SOX_SUCCESS)), world := ret.2,
      calls := [CCall.sox_add_effect c.cChain e.cEffect i.cSignal o.cSignal] }
  | _, _, _ => { result := Except.error Panic.nilDereference, world := w, calls := [] }

/-- Source: `func (c *EffectsChain) FlowEffects() bool` -/
def EffectsChain.FlowEffects (lib : LibSoX σ) (c : EffectsChain) (w : σ) : Outcome σ Bool :=
  let ret := lib.sox_flow_effects w c.cChain 0 0
  { result := Except.ok (decide (ret.1 = lib.SOX_SUCCESS)), world := ret.2,
    calls := [CCall.sox_flow_effects c.cChain 0 0] }

/-- The loop of `Effect.Options`, `for i, v := range args`, from index `i` on: a `*Format`
stores its session handle in `cargs[i]` (and panics when the pointer is nil), a string stores
`C.CString(v)`, a value of any other type leaves `cargs[i]` as it is. -/
def optionsLoop : List GoValue → Nat → List CData → Except Panic (List CData)
  | [], _, cargs => Except.ok cargs
  | v :: rest, i, cargs =>
    match v with
    | GoValue.format none => Except.error Panic.nilDereference
    | GoValue.format (some f) =>
      if i < cargs.length then optionsLoop rest (i + 1) (cargs.set i (CData.addr f.cFormat))
      else Except.error Panic.indexOutOfRange
    | GoValue.str s =>
      if i < cargs.length then optionsLoop rest (i + 1) (cargs.set i (CString s))
      else Except.error Panic.indexOutOfRange
    | _ => optionsLoop rest (i + 1) cargs

/-- Source: `func (e *Effect) Options(args ...interface{}) int` -/
def Effect.Options (lib : LibSoX σ) (e : Effect) (args : List GoValue) (w : σ) :
    Outcome σ Int :=
  if args.length = 0 then
    let ret := lib.sox_effect_options w e.cEffect 0 none
    { result := Except.ok ret.1, world := ret.2,
      calls := [CCall.sox_effect_options e.cEffect 0 none] }
  else if args.length > 10 then
    { result := Except.error (Panic.message "Too many arguments to sox.Effect.Options()"),
      world := w, calls := [] }
  else
    match optionsLoop args 0 (List.replicate 10 CData.null) with
    | Except.error p => { result := Except.error p, world := w, calls := [] }
    | Except.ok cargs =>
      let ret := lib.sox_effect_options w e.cEffect args.length (some cargs)
      { result := Except.ok ret.1, world := ret.2,
        calls := [CCall.sox_effect_options e.cEffect args.length (some cargs)] }

end Wrappers

/-- The argument-vector entry the specification gives for one option: the C string with the
content of a Go string, as far as a C string can hold it, which is up to the first NUL byte of
the Go string; the session handle of a `*Format`; and null for a value of any other type. -/
def argEntry (v : GoValue) : CData :=
  match v with
  | GoValue.str s => CData.cstr (s.takeWhile fun b => b != 0)
  | GoValue.format (some f) => CData.addr f.cFormat
  | _ => CData.null

/-! ## A concrete C side, to run the wrappers on -/

/-- The Go string of an ASCII text: one byte, its code, for each character. -/
def ascii (text : String) : GoString :=
  text.toList.map Char.toNat

/-- A small instance of the C side over a call counter: the constants have the values of
`sox.h`; opening succeeds on a non-empty path or buffer; the decoder reports as many samples as
were requested; the format registry is empty and no session is seekable. -/
def demoLib : LibSoX Nat where
  SOX_SUCCESS := 0
  SOX_EOF := -1
  SOX_SEEK_SET := 0
  sox_format_init := fun w => (0, w + 1)
  sox_init := fun w => (0, w + 1)
  sox_quit := fun w => (if w = 0 then -1 else 0, w + 1)
  sox_close := fun w _ => (0, w + 1)
  sox_read := fun w _ buf len => ((len, buf), w + 1)
  sox_open_read := fun w path _ _ _ =>
    (match path with
      | CData.cstr s => s.length
      | _ => 0, w + 1)
  sox_open_mem_read := fun w _ size _ _ _ => (size, w + 1)
  sox_open_write := fun w path _ _ _ _ _ =>
    (match path with
      | CData.cstr s => s.length
      | _ => 0, w + 1)
  sox_find_format := fun w _ _ => (0, w + 1)
  sox_add_effect := fun w _ effect _ _ => (if effect = 0 then -1 else 0, w + 1)
  sox_flow_effects := fun w chain _ _ => (if chain = 0 then -1 else 0, w + 1)
  sox_effect_options := fun w _ argc _ => (argc, w + 1)
  handler_seek := fun w _ _ _ => (0, w + 1)
  seekable := fun _ _ => 0
  memory := fun _ a => a % 256

/-! ## Theorems -/

section Theorems

variable {σ : Type}

/-- C2: `Format.Close` marks the session consumed.  For every `Format`, `Close` returns, the
session's handle field is nil afterwards, and the calls made are exactly one `sox_close`, on the
handle the `Format` held before the call; the C world is the one `sox_close` left. -/
theorem close_marks_session_consumed (lib : LibSoX σ) (f : Format) (w : σ) :
    (∃ g : Format, (Format.Close lib f w).result = Except.ok g ∧ g.cFormat = 0) ∧
    (Format.Close lib f w).calls = [CCall.sox_close f.cFormat] ∧
    (Format.Close lib f w).world = (lib.sox_close w f.cFormat).2 :=
  ⟨⟨{ f with cFormat := 0 }, rfl, rfl⟩, rfl, rfl⟩

/-- C3: `OpenRead` and `OpenWrite` return the handle of the new session, or nil on failure.
For every path, and for `OpenWrite` every signal, encoding and filetype argument (nil ones
included), the call returns; the result is nil if and only if the underlying open call
returned a null session, and otherwise it wraps exactly the session the underlying call
returned.  A nil signal or encoding is handed on as a null pointer, and the filetype as a C
string only when it is a Go string. -/
theorem open_returns_handle_or_nil (lib : LibSoX σ) (path : GoString)
    (signal : Option SignalInfo) (encoding : Option EncodingInfo) (filetype : GoValue) (w : σ) :
    ((OpenRead lib path w).result = Except.ok none ↔
      (lib.sox_open_read w (CString path) 0 0 CData.null).1 = 0) ∧
    ((lib.sox_open_read w (CString path) 0 0 CData.null).1 ≠ 0 →
      (OpenRead lib path w).result =
        Except.ok (some { cFormat := (lib.sox_open_read w (CString path) 0 0 CData.null).1 })) ∧
    ((OpenWrite lib path signal encoding filetype w).result = Except.ok none ↔
      (lib.sox_open_write w (CString path) (maybeCSignal signal) (maybeCEncoding encoding)
        (maybeCString filetype) 0 0).1 = 0) ∧
    ((lib.sox_open_write w (CString path) (maybeCSignal signal) (maybeCEncoding encoding)
        (maybeCString filetype) 0 0).1 ≠ 0 →
      (OpenWrite lib path signal encoding filetype w).result =
        Except.ok (some { cFormat := (lib.sox_open_write w (CString path) (maybeCSignal signal)
          (maybeCEncoding encoding) (maybeCString filetype) 0 0).1 })) := by
  refine ⟨?_, ?_, ?_, ?_⟩
  · by_cases h : (lib.sox_open_read w (CString path) 0 0 CData.null).1 = 0 <;>
      simp [OpenRead, h]
  · intro h
    simp [OpenRead, h]
  · by_cases h : (lib.sox_open_write w (CString path) (maybeCSignal signal)
        (maybeCEncoding encoding) (maybeCString filetype) 0 0).1 = 0 <;>
      simp [OpenWrite, h]
  · intro h
    simp [OpenWrite, h]

/-- Witness of C3 on the demonstration library: opening the path `a.wav` yields session 5 for
reading and for writing with nil signal, encoding and filetype. -/
theorem open_returns_handle_or_nil_witness :
    (OpenRead demoLib (ascii "a.wav") 0).result = Except.ok (some { cFormat := 5 }) ∧
    (OpenWrite demoLib (ascii "a.wav") none none GoValue.nilValue 0).result =
      Except.ok (some { cFormat := 5 }) :=
  ⟨(open_returns_handle_or_nil demoLib (ascii "a.wav") none none GoValue.nilValue 0).2.1
      (by decide),
   (open_returns_handle_or_nil demoLib (ascii "a.wav") none none GoValue.nilValue 0).2.2.2
      (by decide)⟩

/-- C9: every boolean-returning wrapper reports success exactly when the library does.  Each of
`FormatInit`, `Init`, `Quit`, `Format.Seek`, `EffectsChain.AddEffect` (on non-nil arguments) and
`EffectsChain.FlowEffects` returns a boolean, and that boolean is true if and only if the
underlying call returned `SOX_SUCCESS`; any other code yields false. -/
theorem bool_wrappers_report_library_success (lib : LibSoX σ) (w : σ) (f : Format)
    (offset : Nat) (c : EffectsChain) (e : Effect) (i o : SignalInfo) :
    (∃ b, (FormatInit lib w).result = Except.ok b ∧
      (b = true ↔ (lib.sox_format_init w).1 = lib.SOX_SUCCESS)) ∧
    (∃ b, (Init lib w).result = Except.ok b ∧
      (b = true ↔ (lib.sox_init w).1 = lib.SOX_SUCCESS)) ∧
    (∃ b, (Quit lib w).result = Except.ok b ∧
      (b = true ↔ (lib.sox_quit w).1 = lib.SOX_SUCCESS)) ∧
    (∃ b, (Format.Seek lib f offset w).result = Except.ok b ∧
      (b = true ↔ (sox_seek lib w f.cFormat offset lib.SOX_SEEK_SET).1 = lib.SOX_SUCCESS)) ∧
    (∃ b, (EffectsChain.AddEffect lib c (some e) (some i) (some o) w).result = Except.ok b ∧
      (b = true ↔
        (lib.sox_add_effect w c.cChain e.cEffect i.cSignal o.cSignal).1 = lib.SOX_SUCCESS)) ∧
    (∃ b, (EffectsChain.FlowEffects lib c w).result = Except.ok b ∧
      (b = true ↔ (lib.sox_flow_effects w c.cChain 0 0).1 = lib.SOX_SUCCESS)) :=
  ⟨⟨_, rfl, decide_eq_true_iff⟩, ⟨_, rfl, decide_eq_true_iff⟩, ⟨_, rfl, decide_eq_true_iff⟩,
   ⟨_, rfl, decide_eq_true_iff⟩, ⟨_, rfl, decide_eq_true_iff⟩, ⟨_, rfl, decide_eq_true_iff⟩⟩

/-- Witness of C9 on the demonstration library: `Quit` fails with an error code in the initial
world and the wrapper returns false; `FlowEffects` on chain 3 succeeds and the wrapper returns
true. -/
theorem bool_wrappers_report_library_success_witness :
    (Quit demoLib 0).result = Except.ok false ∧
    (EffectsChain.FlowEffects demoLib { cChain := 3 } 0).result = Except.ok true := by
  have h := bool_wrappers_report_library_success demoLib 0 { cFormat := 1 } 0 { cChain := 3 }
    { cEffect := 1 } { cSignal := 1 } { cSignal := 1 }
  obtain ⟨-, -, ⟨b, hb, hq⟩, -, -, ⟨d, hd, hf⟩⟩ := h
  have hbf : b = false := by
    cases b
    · rfl
    · exact absurd (hq.mp rfl) (by decide)
  have hdt : d = true := hf.mpr (by decide)
  subst hbf
  subst hdt
  exact ⟨hb, hd⟩

/-- C7: seek on a non-seekable session always fails.  The seek is always requested as
`SOX_SEEK_SET`, an absolute position; and, `SOX_EOF` being a code other than `SOX_SUCCESS`, for
every `Format` whose `Seekable()` is false and every offset `Seek` returns false and leaves the
C world as it was. -/
theorem seek_fails_on_non_seekable (lib : LibSoX σ) (f : Format) (offset : Nat) (w : σ)
    (hne : lib.SOX_EOF ≠ lib.SOX_SUCCESS) :
    (Format.Seek lib f offset w).calls = [CCall.sox_seek f.cFormat offset lib.SOX_SEEK_SET] ∧
    (Format.Seekable lib f w = false →
      (Format.Seek lib f offset w).result = Except.ok false ∧
      (Format.Seek lib f offset w).world = w) := by
  refine ⟨rfl, ?_⟩
  intro hs
  have h0 : lib.seekable w f.cFormat = 0 := by
    simpa [Format.Seekable] using hs
  simp [Format.Seek, sox_seek, h0, hne]

/-- Witness of C7 on the demonstration library, where no session is seekable: seeking session 7
to offset 100 returns false. -/
theorem seek_fails_on_non_seekable_witness :
    Format.Seekable demoLib { cFormat := 7 } 0 = false ∧
    (Format.Seek demoLib { cFormat := 7 } 100 0).result = Except.ok false :=
  ⟨by decide,
   ((seek_fails_on_non_seekable demoLib { cFormat := 7 } 100 0 (by decide)).2 (by decide)).1⟩

/-- The result of `FindFormat` is a non-nil wrapper on every path: it wraps whatever the lookup
returned, a null handler included, and the flag is forwarded as 1 for true and 0 for false. -/
theorem FindFormat_result (lib : LibSoX σ) (name : GoString) (ignore_devices : Bool) (w : σ) :
    (FindFormat lib name ignore_devices w).result = Except.ok (some
      { cHandler := (lib.sox_find_format w (CString name)
          (if ignore_devices = true then 1 else 0)).1 }) ∧
    (FindFormat lib name ignore_devices w).calls =
      [CCall.sox_find_format (CString name) (if ignore_devices = true then 1 else 0),
       CCall.free (CString name)] :=
  ⟨rfl, rfl⟩

/-- C8, at the failing input: the lookup of `nonexistent-format` yields no handler in the
demonstration library, whose registry is empty, and `FindFormat` returns a non-nil
`*FormatHandler` whose handler field is null, not nil. -/
theorem findFormat_not_found_is_not_nil :
    (demoLib.sox_find_format 0 (CString (ascii "nonexistent-format")) (bool2int false)).1 = 0 ∧
    (FindFormat demoLib (ascii "nonexistent-format") false 0).result =
      Except.ok (some { cHandler := 0 }) ∧
    (FindFormat demoLib (ascii "nonexistent-format") false 0).result ≠ Except.ok none := by
  refine ⟨rfl, rfl, ?_⟩
  intro h
  cases h

/-- The conversions to a signed type are the identity below half the range of the type. -/
theorem wrapSigned_of_lt (bits n : Nat) (h : n < 2 ^ (bits - 1)) :
    wrapSigned bits n = (n : Int) := by
  have hpow : 2 ^ (bits - 1) ≤ 2 ^ bits := Nat.pow_le_pow_right (by decide) (Nat.sub_le bits 1)
  have hmod : n % 2 ^ bits = n := Nat.mod_eq_of_lt (lt_of_lt_of_le h hpow)
  simp [wrapSigned, hmod, h]

/-- C5, as stated, fails: with a one-sample buffer and a request of `2^63` samples, the decoder
of the demonstration library reports `c = 2^63 <= num`, and `Read` returns `-2^63`, a negative
number different from `c`. -/
theorem read_count_wraps_negative :
    (demoLib.sox_read 0 5 [0] (2 ^ 63)).1.1 = 2 ^ 63 ∧
    (Format.Read demoLib { cFormat := 5 } [0] (2 ^ 63) 0).result =
      Except.ok (-(2 ^ 63 : Int), [0]) ∧
    (-(2 ^ 63 : Int)) < 0 := by
  refine ⟨rfl, ?_, by norm_num⟩
  simp [Format.Read, demoLib, toInt64, wrapSigned]

/-- C5, amended: `Format.Read` returns the number of samples actually produced when that
number is below `2^63`.  For every non-empty buffer, every requested count `num` and every
count `c < 2^63` reported by the underlying decoder, `Read` returns, its `int64` result equals
`c` and is non-negative, and it is 0 exactly when the decoder reports 0. -/
theorem read_returns_count_produced (lib : LibSoX σ) (f : Format) (buffer : List Int)
    (num c : Nat) (w : σ) (hb : buffer ≠ [])
    (hc : (lib.sox_read w f.cFormat buffer num).1.1 = c) (hlt : c < 2 ^ 63) :
    ∃ r : Int, (Format.Read lib f buffer num w).result =
        Except.ok (r, (lib.sox_read w f.cFormat buffer num).1.2) ∧
      r = (c : Int) ∧ 0 ≤ r ∧ (r = 0 ↔ c = 0) := by
  refine ⟨(c : Int), ?_, rfl, Int.ofNat_nonneg c, by simp⟩
  cases buffer with
  | nil => exact absurd rfl hb
  | cons x xs =>
    have h64 : toInt64 c = (c : Int) := wrapSigned_of_lt 64 c hlt
    simp [Format.Read, hc, h64]

/-- Witness of C5, amended, on the demonstration library: a request of 3 samples into a
four-sample buffer returns 3. -/
theorem read_returns_count_produced_witness :
    ∃ r : Int, (Format.Read demoLib { cFormat := 5 } [0, 0, 0, 0] 3 0).result =
        Except.ok (r, [0, 0, 0, 0]) ∧ r = 3 ∧ 0 ≤ r ∧ (r = 0 ↔ 3 = 0) :=
  read_returns_count_produced demoLib { cFormat := 5 } [0, 0, 0, 0] 3 3 0 (by decide) rfl
    (by norm_num)

/-- Below `2^31`, the length `Memstream.Bytes` hands to `C.GoBytes` is the recorded length: the
returned array has that length and its bytes are those of the buffer.  A fresh `NewMemstream()`
yields the empty array. -/
theorem Bytes_of_small_length (lib : LibSoX σ) (m : Memstream) (w : σ)
    (h : m.length < 2 ^ 31) :
    (∃ bs, Memstream.Bytes lib m w = Except.ok bs ∧ bs.length = m.length ∧
      ∀ i (hi : i < bs.length), bs.get ⟨i, hi⟩ = lib.memory w (m.buffer + i)) ∧
    Memstream.Bytes lib NewMemstream w = Except.ok [] := by
  have h32 : toCInt m.length = (m.length : Int) := wrapSigned_of_lt 32 m.length h
  refine ⟨⟨(List.range m.length).map fun i => lib.memory w (m.buffer + i), ?_, by simp, ?_⟩, ?_⟩
  · simp [Memstream.Bytes, GoBytes, h32]
  · intro i hi
    simp
  · simp [Memstream.Bytes, GoBytes, NewMemstream, toCInt, wrapSigned]

/-- C6, at the failing inputs: a memstream of recorded length `2^32 + 1` whose buffer is at
address 1000 yields an array of one byte, not of `2^32 + 1` bytes, and a memstream of recorded
length `2^31` aborts in `C.GoBytes`, the length having become negative as a `C.int`. -/
theorem bytes_length_truncated_to_c_int :
    Memstream.Bytes demoLib { buffer := 1000, length := 2 ^ 32 + 1 } 0 = Except.ok [232] ∧
    Memstream.Bytes demoLib { buffer := 1000, length := 2 ^ 31 } 0 =
      Except.error Panic.gobytesLength := by
  constructor
  · simp [Memstream.Bytes, GoBytes, toCInt, wrapSigned, demoLib, List.range_succ]
  · simp [Memstream.Bytes, GoBytes, toCInt, wrapSigned]

/-- C4, as stated, fails: on the empty byte slice `OpenMemRead` aborts with an index out of
range, and on a nil `*Memstream` it aborts with a nil dereference; neither makes a call. -/
theorem openMemRead_aborts_on_empty_slice :
    (OpenMemRead demoLib (GoValue.bytes []) 0).result = Except.error Panic.indexOutOfRange ∧
    (OpenMemRead demoLib (GoValue.memstream none) 0).result =
      Except.error Panic.nilDereference :=
  ⟨rfl, rfl⟩

/-- C4, amended: `OpenMemRead` returns the handle of the new session, or nil on failure, for
every non-empty byte slice, every non-nil `*Memstream` and every value of any other type.  On
those the call returns; for a byte slice and a memstream the result is nil when the underlying
open returned a null session and wraps the returned session otherwise, for any other type no
call is made and the result is nil; and for a byte slice the length handed to the underlying
open equals the length of the slice.  A nil `*Memstream` aborts. -/
theorem openMemRead_returns_handle_or_nil (lib : LibSoX σ) (w : σ) :
    (∀ b : List Nat, b ≠ [] →
      (OpenMemRead lib (GoValue.bytes b) w).result = Except.ok
        (if (lib.sox_open_mem_read w (CData.goBytes b) b.length 0 0 CData.null).1 = 0 then none
         else some
          { cFormat := (lib.sox_open_mem_read w (CData.goBytes b) b.length 0 0 CData.null).1 }) ∧
      (OpenMemRead lib (GoValue.bytes b) w).calls =
        [CCall.sox_open_mem_read (CData.goBytes b) b.length 0 0 CData.null]) ∧
    (∀ m : Memstream,
      (OpenMemRead lib (GoValue.memstream (some m)) w).result = Except.ok
        (if (lib.sox_open_mem_read w (CData.addr m.buffer) m.length 0 0 CData.null).1 = 0
         then none
         else some { cFormat :=
          (lib.sox_open_mem_read w (CData.addr m.buffer) m.length 0 0 CData.null).1 }) ∧
      (OpenMemRead lib (GoValue.memstream (some m)) w).calls =
        [CCall.sox_open_mem_read (CData.addr m.buffer) m.length 0 0 CData.null]) ∧
    (∀ v : GoValue, (∀ b, v ≠ GoValue.bytes b) → (∀ m, v ≠ GoValue.memstream m) →
      (OpenMemRead lib v w).result = Except.ok none ∧ (OpenMemRead lib v w).calls = []) ∧
    (OpenMemRead lib (GoValue.memstream none) w).result = Except.error Panic.nilDereference := by
  refine ⟨?_, ?_, ?_, rfl⟩
  · intro b hb
    cases b with
    | nil => exact absurd rfl hb
    | cons x xs => exact ⟨rfl, rfl⟩
  · intro m
    exact ⟨rfl, rfl⟩
  · intro v hb hm
    cases v with
    | bytes b => exact absurd rfl (hb b)
    | memstream m => exact absurd rfl (hm m)
    | nilValue => exact ⟨rfl, rfl⟩
    | str s => exact ⟨rfl, rfl⟩
    | format f => exact ⟨rfl, rfl⟩
    | other t => exact ⟨rfl, rfl⟩

/-- Witness of C4, amended, on the demonstration library: a slice of three bytes opens session
3 and the length handed on is 3; a string opens nothing and makes no call. -/
theorem openMemRead_returns_handle_or_nil_witness :
    ((OpenMemRead demoLib (GoValue.bytes [82, 73, 70]) 0).result =
        Except.ok (some { cFormat := 3 }) ∧
      (OpenMemRead demoLib (GoValue.bytes [82, 73, 70]) 0).calls =
        [CCall.sox_open_mem_read (CData.goBytes [82, 73, 70]) 3 0 0 CData.null]) ∧
    ((OpenMemRead demoLib (GoValue.str (ascii "a.wav")) 0).result = Except.ok none ∧
      (OpenMemRead demoLib (GoValue.str (ascii "a.wav")) 0).calls = []) :=
  ⟨(openMemRead_returns_handle_or_nil demoLib 0).1 [82, 73, 70] (by decide),
   (openMemRead_returns_handle_or_nil demoLib 0).2.2.1 (GoValue.str (ascii "a.wav"))
     (fun b h => by cases h) (fun m h => by cases h)⟩

/-- The C string `C.CString(s)` leaves in the C heap holds the bytes of `s` before its first
NUL byte. -/
theorem cStringContent_append_nul (s : GoString) :
    cStringContent (s ++ [0]) = s.takeWhile fun b => b != 0 := by
  induction s with
  | nil => simp [cStringContent]
  | cons b bs ih =>
    by_cases hb : b = 0
    · simp [cStringContent, hb]
    · have ih1 : List.takeWhile (fun b => b != 0) (bs ++ [0]) =
          List.takeWhile (fun b => b != 0) bs := ih
      simp [cStringContent, hb, ih1]

/-- A Go string without a NUL byte is copied whole by `C.CString`. -/
theorem CString_of_no_nul (s : GoString) (h : 0 ∉ s) : CString s = CData.cstr s := by
  have hall : ∀ x ∈ s, (x != 0) = true := by
    intro x hx
    have : x ≠ 0 := fun h0 => h (h0 ▸ hx)
    simpa using this
  simp only [CString, cStringContent_append_nul]
  rw [List.takeWhile_eq_self_iff.mpr hall]

/-- The loop of `Effect.Options` over a vector whose entries from `pre.length` on are null, with
room for all the options: it aborts exactly when an option is a nil `*Format`, and otherwise
stores the entry of each option, in order, and leaves the remaining entries null. -/
theorem optionsLoop_eq (args : List GoValue) :
    ∀ (pre : List CData) (k : Nat), args.length ≤ k →
      optionsLoop args pre.length (pre ++ List.replicate k CData.null) =
        if GoValue.format none ∈ args then Except.error Panic.nilDereference
        else Except.ok (pre ++ args.map argEntry ++
          List.replicate (k - args.length) CData.null) := by
  induction args with
  | nil => intro pre k _; simp [optionsLoop]
  | cons v rest ih =>
    intro pre k hk
    obtain ⟨j, rfl⟩ : ∃ j, k = j + 1 := ⟨k - 1, by simp at hk; omega⟩
    have hj : rest.length ≤ j := by simpa using hk
    have hset : ∀ x : CData,
        (pre ++ List.replicate (j + 1) CData.null).set pre.length x =
          (pre ++ [x]) ++ List.replicate j CData.null := by
      intro x
      simp [List.replicate_succ]
    have hlen : pre.length < (pre ++ List.replicate (j + 1) CData.null).length := by
      simp
    have hsame : pre ++ List.replicate (j + 1) CData.null =
        (pre ++ [CData.null]) ++ List.replicate j CData.null := by
      simp [List.replicate_succ]
    have ih1 := fun x : CData => ih (pre ++ [x]) j hj
    simp only [List.length_append, List.length_singleton] at ih1
    cases v with
    | format f =>
      cases f with
      | none => simp [optionsLoop]
      | some g =>
        simp only [optionsLoop, hlen, if_true, hset, ih1]
        simp [argEntry]
    | str s =>
      simp only [optionsLoop, hlen, if_true, hset, ih1, CString, cStringContent_append_nul]
      simp [argEntry]
    | nilValue =>
      simp only [optionsLoop, hsame, ih1]
      simp [argEntry]
    | bytes b =>
      simp only [optionsLoop, hsame, ih1]
      simp [argEntry]
    | memstream m =>
      simp only [optionsLoop, hsame, ih1]
      simp [argEntry]
    | other t =>
      simp only [optionsLoop, hsame, ih1]
      simp [argEntry]

/-- The body of `Effect.Options` past its two guards: with at most 10 options, the loop runs on
the zeroed vector of 10 entries. -/
theorem optionsLoop_zeroed (args : List GoValue) (h10 : args.length ≤ 10) :
    optionsLoop args 0 (List.replicate 10 CData.null) =
      if GoValue.format none ∈ args then Except.error Panic.nilDereference
      else Except.ok (args.map argEntry ++ List.replicate (10 - args.length) CData.null) := by
  simpa using optionsLoop_eq args [] 10 h10

/-- C1, as stated, fails: given the single argument nil of type `*Format`, `Effect.Options`
aborts with a nil dereference although it was given one argument, not more than 10. -/
theorem options_aborts_on_nil_format :
    [GoValue.format none].length = 1 ∧
    (Effect.Options demoLib { cEffect := 1 } [GoValue.format none] 0).result =
      Except.error Panic.nilDereference :=
  ⟨rfl, rfl⟩

/-- C1, amended: `Effect.Options` aborts exactly when it is given more than 10 arguments or an
argument that is a nil `*Format`.  For every argument list of length 0 to 10 without a nil
`*Format` it does not abort, makes the underlying option-parsing call once and returns its
integer status; for every argument list of length 11 or more it aborts with the message of the
source, and for every shorter one with a nil `*Format` it aborts with a nil dereference, in both
cases without making the underlying call. -/
theorem options_aborts_exactly (lib : LibSoX σ) (e : Effect) (args : List GoValue) (w : σ) :
    ((∃ p, (Effect.Options lib e args w).result = Except.error p) ↔
      (10 < args.length ∨ GoValue.format none ∈ args)) ∧
    (10 < args.length →
      (Effect.Options lib e args w).result =
        Except.error (Panic.message "Too many arguments to sox.Effect.Options()") ∧
      (Effect.Options lib e args w).calls = [] ∧ (Effect.Options lib e args w).world = w) ∧
    (args.length ≤ 10 → GoValue.format none ∈ args →
      (Effect.Options lib e args w).result = Except.error Panic.nilDereference ∧
      (Effect.Options lib e args w).calls = [] ∧ (Effect.Options lib e args w).world = w) ∧
    (args.length ≤ 10 → GoValue.format none ∉ args →
      ∃ argv, (Effect.Options lib e args w).result =
          Except.ok (lib.sox_effect_options w e.cEffect args.length argv).1 ∧
        (Effect.Options lib e args w).calls =
          [CCall.sox_effect_options e.cEffect args.length argv] ∧
        (Effect.Options lib e args w).world =
          (lib.sox_effect_options w e.cEffect args.length argv).2) := by
  have hbig : 10 < args.length →
      (Effect.Options lib e args w).result =
        Except.error (Panic.message "Too many arguments to sox.Effect.Options()") ∧
      (Effect.Options lib e args w).calls = [] ∧ (Effect.Options lib e args w).world = w := by
    intro h
    have h0 : args.length ≠ 0 := by omega
    simp [Effect.Options, h0, h]
  have hnil : args.length ≤ 10 → GoValue.format none ∈ args →
      (Effect.Options lib e args w).result = Except.error Panic.nilDereference ∧
      (Effect.Options lib e args w).calls = [] ∧ (Effect.Options lib e args w).world = w := by
    intro h hm
    have h0 : args.length ≠ 0 := by
      intro hz
      rw [List.length_eq_zero] at hz
      simp [hz] at hm
    have hgt : ¬ args.length > 10 := by omega
    have hloop := optionsLoop_zeroed args h
    rw [if_pos hm] at hloop
    simp only [Effect.Options, hloop]
    simp [h0, hgt]
  have hok : args.length ≤ 10 → GoValue.format none ∉ args →
      ∃ argv, (Effect.Options lib e args w).result =
          Except.ok (lib.sox_effect_options w e.cEffect args.length argv).1 ∧
        (Effect.Options lib e args w).calls =
          [CCall.sox_effect_options e.cEffect args.length argv] ∧
        (Effect.Options lib e args w).world =
          (lib.sox_effect_options w e.cEffect args.length argv).2 := by
    intro h hm
    by_cases h0 : args.length = 0
    · exact ⟨none, by simp [Effect.Options, h0], by simp [Effect.Options, h0],
        by simp [Effect.Options, h0]⟩
    · have hgt : ¬ args.length > 10 := by omega
      have hloop := optionsLoop_zeroed args h
      rw [if_neg hm] at hloop
      refine ⟨some (args.map argEntry ++ List.replicate (10 - args.length) CData.null),
        ?_, ?_, ?_⟩ <;>
      · simp only [Effect.Options, hloop]
        simp [h0, hgt]
  refine ⟨?_, hbig, hnil, hok⟩
  constructor
  · rintro ⟨p, hp⟩
    by_contra hcon
    push_neg at hcon
    obtain ⟨argv, hr, -, -⟩ := hok hcon.1 hcon.2
    rw [hr] at hp
    cases hp
  · rintro (h | h)
    · exact ⟨_, (hbig h).1⟩
    · by_cases hlen : 10 < args.length
      · exact ⟨_, (hbig hlen).1⟩
      · exact ⟨_, (hnil (by omega) h).1⟩

/-- Witness of C1, amended, on the demonstration library: two string options are handed on and
the status of the call, here the argument count 2, is returned; eleven options abort. -/
theorem options_aborts_exactly_witness :
    (∃ argv,
      (Effect.Options demoLib { cEffect := 1 }
        [GoValue.str (ascii "-3"), GoValue.str (ascii "dB")] 0).result =
        Except.ok (demoLib.sox_effect_options 0 1 2 argv).1 ∧
      (Effect.Options demoLib { cEffect := 1 }
        [GoValue.str (ascii "-3"), GoValue.str (ascii "dB")] 0).calls =
        [CCall.sox_effect_options 1 2 argv] ∧
      (Effect.Options demoLib { cEffect := 1 }
        [GoValue.str (ascii "-3"), GoValue.str (ascii "dB")] 0).world =
        (demoLib.sox_effect_options 0 1 2 argv).2) ∧
    ((Effect.Options demoLib { cEffect := 1 }
        (List.replicate 11 (GoValue.str (ascii "x"))) 0).result =
        Except.error (Panic.message "Too many arguments to sox.Effect.Options()") ∧
      (Effect.Options demoLib { cEffect := 1 }
        (List.replicate 11 (GoValue.str (ascii "x"))) 0).calls = [] ∧
      (Effect.Options demoLib { cEffect := 1 }
        (List.replicate 11 (GoValue.str (ascii "x"))) 0).world = 0) :=
  ⟨(options_aborts_exactly demoLib { cEffect := 1 }
      [GoValue.str (ascii "-3"), GoValue.str (ascii "dB")] 0).2.2.2 (by decide) (by decide),
   (options_aborts_exactly demoLib { cEffect := 1 }
      (List.replicate 11 (GoValue.str (ascii "x"))) 0).2.1 (by decide)⟩

/-- C10, as stated, fails, in two ways.  Given the two arguments `0.5` and nil of type
`*Format`, a list of length 2, `Effect.Options` aborts in its loop and the underlying
option-parsing call receives nothing: no call is made.  Given the one Go string of the three
bytes `a`, NUL, `b`, the call receives as entry 0 the C string `a`, whose content is not that
of the argument. -/
theorem options_vector_differs_from_arguments :
    ([GoValue.str (ascii "0.5"), GoValue.format none].length = 2 ∧
      (Effect.Options demoLib { cEffect := 1 }
        [GoValue.str (ascii "0.5"), GoValue.format none] 0).calls = [] ∧
      (Effect.Options demoLib { cEffect := 1 }
        [GoValue.str (ascii "0.5"), GoValue.format none] 0).result =
        Except.error Panic.nilDereference) ∧
    ((Effect.Options demoLib { cEffect := 1 } [GoValue.str [97, 0, 98]] 0).calls =
        [CCall.sox_effect_options 1 1
          (some (CData.cstr [97] :: List.replicate 9 CData.null))] ∧
      CData.cstr [97] ≠ CData.cstr [97, 0, 98]) :=
  ⟨⟨rfl, rfl, rfl⟩, rfl, by decide⟩

/-- C10, amended: `Effect.Options` applies the given options in order.  For no argument the
underlying option-parsing call receives count 0 and a null vector.  For every argument list of
length `n` with `1 <= n <= 10` none of whose entries is a nil `*Format`, the call receives
count `n` and a vector of 10 entries whose `i`-th entry, for every `i < n`, is the C string
holding the bytes of `args[i]` before its first NUL byte when `args[i]` is a string (so the C
string with the same content as `args[i]` when that holds no NUL byte), the session handle of
`args[i]` when it is a `*Format`, and null when it is of any other type, and whose entries at
positions `n..9` are null. -/
theorem options_passes_arguments_in_order (lib : LibSoX σ) (e : Effect) (w : σ) :
    (Effect.Options lib e [] w).calls = [CCall.sox_effect_options e.cEffect 0 none] ∧
    ∀ args : List GoValue, 1 ≤ args.length → args.length ≤ 10 → GoValue.format none ∉ args →
      ∃ argv : List CData,
        (Effect.Options lib e args w).calls =
          [CCall.sox_effect_options e.cEffect args.length (some argv)] ∧
        argv.length = 10 ∧
        (∀ i, i < args.length → argv[i]? = args[i]?.map argEntry) ∧
        (∀ (i : Nat) (s : GoString), args[i]? = some (GoValue.str s) → 0 ∉ s → argv[i]? = some (CData.cstr s)) ∧
        (∀ i, args.length ≤ i → i < 10 → argv[i]? = some CData.null) := by
  refine ⟨rfl, ?_⟩
  intro args h1 h10 hm
  have h0 : args.length ≠ 0 := by omega
  have hgt : ¬ args.length > 10 := by omega
  have hloop := optionsLoop_zeroed args h10
  rw [if_neg hm] at hloop
  have hentry : ∀ i, i < args.length →
      (args.map argEntry ++ List.replicate (10 - args.length) CData.null)[i]? =
        args[i]?.map argEntry := by
    intro i hi
    rw [List.getElem?_append_left (by simpa using hi)]
    simp
  refine ⟨args.map argEntry ++ List.replicate (10 - args.length) CData.null, ?_, ?_, hentry,
    ?_, ?_⟩
  · simp only [Effect.Options, hloop]
    simp [h0, hgt]
  · simp
    omega
  · intro i s hs hnul
    have hi : i < args.length := by
      by_contra hge
      rw [List.getElem?_eq_none (by omega)] at hs
      cases hs
    have hc := CString_of_no_nul s hnul
    simp only [CString, cStringContent_append_nul] at hc
    rw [hentry i hi, hs]
    simpa [argEntry] using hc
  · intro i hn hi
    rw [List.getElem?_append_right (by simpa using hn)]
    rw [List.length_map, List.getElem?_replicate, if_pos (by omega)]

/-- Witness of C10, amended, on the demonstration library: a string, a session handle and an
integer are handed on as a C string, the handle and null, followed by seven null entries. -/
theorem options_passes_arguments_in_order_witness :
    ∃ argv : List CData,
      (Effect.Options demoLib { cEffect := 1 }
        [GoValue.str (ascii "0.5"), GoValue.format (some { cFormat := 9 }), GoValue.other 0]
        0).calls =
        [CCall.sox_effect_options 1
          ([GoValue.str (ascii "0.5"), GoValue.format (some { cFormat := 9 }),
            GoValue.other 0].length)
          (some argv)] ∧
      argv.length = 10 ∧
      (∀ i, i < [GoValue.str (ascii "0.5"), GoValue.format (some { cFormat := 9 }),
          GoValue.other 0].length →
        argv[i]? = [GoValue.str (ascii "0.5"), GoValue.format (some { cFormat := 9 }),
          GoValue.other 0][i]?.map argEntry) ∧
      (∀ (i : Nat) (s : GoString), [GoValue.str (ascii "0.5"), GoValue.format (some { cFormat := 9 }),
          GoValue.other 0][i]? = some (GoValue.str s) → 0 ∉ s →
        argv[i]? = some (CData.cstr s)) ∧
      (∀ i, [GoValue.str (ascii "0.5"), GoValue.format (some { cFormat := 9 }),
          GoValue.other 0].length ≤ i → i < 10 → argv[i]? = some CData.null) :=
  (options_passes_arguments_in_order demoLib { cEffect := 1 } 0).2
    [GoValue.str (ascii "0.5"), GoValue.format (some { cFormat := 9 }), GoValue.other 0]
    (by decide) (by decide) (by decide)

end Theorems

end Sox
